import Mathlib

/-!
Shallow embedding of the `laotang-mastra-app` worker (`src/worker.ts` and
`src/mastra/config/model.ts`): the request router, the runtime-configuration
serialization and cache, the request validators, and the extra-header parsing,
together with proofs about the specified behaviour.

External collaborators (the agent framework, the LLM provider, persistence)
are modelled as oracles/events; machine-level JavaScript primitives
(`JSON.stringify` on flat string records, `JSON.parse` outcomes, truthiness)
are embedded explicitly.
-/

/-- JSON values, as produced by `JSON.parse` on a request body or an
environment variable.  Numbers are modelled as integers, which covers every
value the worker inspects. -/
inductive Json where
  | null
  | bool (b : Bool)
  | num (n : Int)
  | str (s : String)
  | arr (elems : List Json)
  | obj (fields : List (String × Json))

/-- Property lookup on a JSON value: the first binding of `key` when the value
is an object, `none` otherwise (mirroring property access on a parsed body;
`JSON.parse` never yields duplicate keys, so first-binding lookup agrees with
JavaScript semantics on all parseable inputs). -/
def Json.lookup (j : Json) (key : String) : Option Json :=
  match j with
  | .obj fields => List.lookup key fields
  | _ => none

/-- The runtime configuration record derived from environment bindings
(`RuntimeEnv` in `src/mastra/config/model.ts`, as populated by
`buildRuntimeEnv` in `src/worker.ts`): a flat record of optional strings. -/
structure RuntimeEnv where
  LLM_MODEL_ID : Option String
  LLM_BASE_URL : Option String
  LLM_API_KEY : Option String
  OPENAI_API_KEY : Option String
  LLM_EXTRA_HEADERS : Option String
  LIBSQL_URL : Option String
  LIBSQL_AUTH_TOKEN : Option String
deriving DecidableEq, Repr

/-- Worker environment bindings (`WorkerEnvBindings` in `src/worker.ts`); the
same seven optional string fields as `RuntimeEnv`. -/
abbrev Bindings := RuntimeEnv

/-- `buildRuntimeEnv` from `src/worker.ts`: copies the seven bindings into a
fresh `RuntimeEnv` record. -/
def buildRuntimeEnv (env : Bindings) : RuntimeEnv :=
  { LLM_MODEL_ID := env.LLM_MODEL_ID
    LLM_BASE_URL := env.LLM_BASE_URL
    LLM_API_KEY := env.LLM_API_KEY
    OPENAI_API_KEY := env.OPENAI_API_KEY
    LLM_EXTRA_HEADERS := env.LLM_EXTRA_HEADERS
    LIBSQL_URL := env.LIBSQL_URL
    LIBSQL_AUTH_TOKEN := env.LIBSQL_AUTH_TOKEN }

/-- The key/value fields of a `RuntimeEnv` in object-literal insertion order,
exactly as `Object.entries` enumerates the record built by `buildRuntimeEnv`. -/
def fieldsOf (e : RuntimeEnv) : List (String × Option String) :=
  [("LLM_MODEL_ID", e.LLM_MODEL_ID),
   ("LLM_BASE_URL", e.LLM_BASE_URL),
   ("LLM_API_KEY", e.LLM_API_KEY),
   ("OPENAI_API_KEY", e.OPENAI_API_KEY),
   ("LLM_EXTRA_HEADERS", e.LLM_EXTRA_HEADERS),
   ("LIBSQL_URL", e.LIBSQL_URL),
   ("LIBSQL_AUTH_TOKEN", e.LIBSQL_AUTH_TOKEN)]

/-- Drops the `undefined` fields, keeping key/value pairs (the
`.filter(([, value]) => value !== undefined)` step of `serializeEnv`). -/
def entriesOfList (l : List (String × Option String)) : List (String × String) :=
  l.filterMap (fun kv => kv.2.map (fun v => (kv.1, v)))

/-- The defined entries of a runtime configuration, in insertion order. -/
def definedEntries (e : RuntimeEnv) : List (String × String) :=
  entriesOfList (fieldsOf e)

/-- Code-point-wise comparison of key strings.  `localeCompare` on the seven
ASCII field names agrees with code-point order (every differing position
compares plain letters), so this is the faithful comparison for the sort. -/
def charListLe : List Char → List Char → Bool
  | [], _ => true
  | _ :: _, [] => false
  | a :: as, b :: bs =>
    if a.toNat < b.toNat then true
    else if b.toNat < a.toNat then false
    else charListLe as bs

/-- Key order used by the configuration sort. -/
def keyLe (a b : String) : Bool := charListLe a.data b.data

/-- Insert a pair into a key-sorted list (one step of sorting by key). -/
def insortPair (p : String × String) : List (String × String) → List (String × String)
  | [] => [p]
  | q :: qs => if keyLe p.1 q.1 then p :: q :: qs else q :: insortPair p qs

/-- Sort a key/value list by key (the `.sort(([a], [b]) => a.localeCompare(b))`
step of `serializeEnv`; any correct sort produces the same list because the
keys are distinct). -/
def sortPairs : List (String × String) → List (String × String)
  | [] => []
  | p :: ps => insortPair p (sortPairs ps)

/-- `JSON.stringify` escaping of one character inside a string literal
(lowercase `\u00XX` for unnamed control characters, as V8 emits). -/
def escapeChar (c : Char) : List Char :=
  if c = '"' then ['\\', '"']
  else if c = '\\' then ['\\', '\\']
  else if c = '\n' then ['\\', 'n']
  else if c = '\r' then ['\\', 'r']
  else if c = '\t' then ['\\', 't']
  else if c.toNat = 8 then ['\\', 'b']
  else if c.toNat = 12 then ['\\', 'f']
  else if c.toNat < 32 then
    ['\\', 'u', '0', '0',
     (if c.toNat / 16 < 10 then Char.ofNat (48 + c.toNat / 16) else Char.ofNat (87 + c.toNat / 16)),
     (if c.toNat % 16 < 10 then Char.ofNat (48 + c.toNat % 16) else Char.ofNat (87 + c.toNat % 16))]
  else [c]

/-- `JSON.stringify` escaping of a whole string body. -/
def escapeStr (cs : List Char) : List Char := cs.flatMap escapeChar

/-- One `"key":"value"` fragment of the serialized configuration object. -/
def pairChars (k v : String) : List Char :=
  '"' :: escapeStr k.data ++ '"' :: ':' :: '"' :: escapeStr v.data ++ ['"']

/-- The comma-separated fragments of a non-empty entry list, ending with the
closing brace. -/
def pairsChars : List (String × String) → List Char
  | [] => ['\x7d']
  | [(k, v)] => pairChars k v ++ ['\x7d']
  | (k, v) :: rest => pairChars k v ++ ',' :: pairsChars rest

/-- `JSON.stringify(Object.fromEntries(entries))` for a flat list of
string-valued entries with distinct keys. -/
def stringifyEntries (ps : List (String × String)) : String :=
  String.mk ('\x7b' :: pairsChars ps)

/-- `serializeEnv` from `src/worker.ts`: drop undefined fields, sort the
remaining entries by key, and stringify the resulting flat object. -/
def serializeEnv (e : RuntimeEnv) : String :=
  stringifyEntries (sortPairs (definedEntries e))

/-- Decode one hex digit emitted by `escapeChar`. -/
def fromHexDigit (c : Char) : Option Nat :=
  if 48 ≤ c.toNat ∧ c.toNat ≤ 57 then some (c.toNat - 48)
  else if 97 ≤ c.toNat ∧ c.toNat ≤ 102 then some (c.toNat - 87)
  else none

/-- Parse a JSON string body up to and including its closing quote, undoing
`escapeChar`; returns the decoded characters and the unconsumed remainder. -/
def parseJStr : List Char → Option (List Char × List Char)
  | [] => none
  | c :: rest =>
    if c = '"' then some ([], rest)
    else if c = '\\' then
      match rest with
      | [] => none
      | d :: rest2 =>
        if d = '"' then (parseJStr rest2).map (fun p => ('"' :: p.1, p.2))
        else if d = '\\' then (parseJStr rest2).map (fun p => ('\\' :: p.1, p.2))
        else if d = 'n' then (parseJStr rest2).map (fun p => ('\n' :: p.1, p.2))
        else if d = 'r' then (parseJStr rest2).map (fun p => ('\r' :: p.1, p.2))
        else if d = 't' then (parseJStr rest2).map (fun p => ('\t' :: p.1, p.2))
        else if d = 'b' then (parseJStr rest2).map (fun p => (Char.ofNat 8 :: p.1, p.2))
        else if d = 'f' then (parseJStr rest2).map (fun p => (Char.ofNat 12 :: p.1, p.2))
        else if d = 'u' then
          match rest2 with
          | z1 :: z2 :: h1 :: h2 :: rest3 =>
            if z1 = '0' ∧ z2 = '0' then
              match fromHexDigit h1, fromHexDigit h2 with
              | some a, some b =>
                (parseJStr rest3).map (fun p => (Char.ofNat (16 * a + b) :: p.1, p.2))
              | _, _ => none
            else none
          | _ => none
        else none
    else (parseJStr rest).map (fun p => (c :: p.1, p.2))

/-- Parse the pair fragments of a serialized object after the opening brace,
consuming the closing brace; the fuel bounds the number of pairs. -/
def parsePairs : Nat → List Char → Option (List (String × String))
  | 0, _ => none
  | fuel + 1, l =>
    match l with
    | '"' :: l1 =>
      match parseJStr l1 with
      | some (k, ':' :: '"' :: l2) =>
        match parseJStr l2 with
        | some (v, '\x7d' :: []) => some [(String.mk k, String.mk v)]
        | some (v, ',' :: l4) =>
          (parsePairs fuel l4).map (fun ps => (String.mk k, String.mk v) :: ps)
        | _ => none
      | _ => none
    | _ => none

/-- Decode a serialized flat object back into its entry list. -/
def decodeEntries (s : String) : Option (List (String × String)) :=
  match s.data with
  | [] => none
  | c :: rest =>
    if c = '\x7b' then
      (if rest = ['\x7d'] then some [] else parsePairs rest.length rest)
    else none

/-- Reconstruct a `RuntimeEnv` from a serialized configuration string. -/
def decodeEnv (s : String) : Option RuntimeEnv :=
  (decodeEntries s).map (fun ps =>
    { LLM_MODEL_ID := List.lookup "LLM_MODEL_ID" ps
      LLM_BASE_URL := List.lookup "LLM_BASE_URL" ps
      LLM_API_KEY := List.lookup "LLM_API_KEY" ps
      OPENAI_API_KEY := List.lookup "OPENAI_API_KEY" ps
      LLM_EXTRA_HEADERS := List.lookup "LLM_EXTRA_HEADERS" ps
      LIBSQL_URL := List.lookup "LIBSQL_URL" ps
      LIBSQL_AUTH_TOKEN := List.lookup "LIBSQL_AUTH_TOKEN" ps })

example : serializeEnv ⟨none, none, none, none, none, none, none⟩ = "\x7b\x7d" := by decide

example :
    serializeEnv ⟨some "m", none, some "k", none, none, none, none⟩ =
      "\x7b\"LLM_API_KEY\":\"k\",\"LLM_MODEL_ID\":\"m\"\x7d" := by decide

example :
    decodeEnv (serializeEnv ⟨some "m", none, some "k\"x", none, none, none, none⟩) =
      some ⟨some "m", none, some "k\"x", none, none, none, none⟩ := by decide

theorem string_mk_data (s : String) : String.mk s.data = s := rfl

theorem fromHexDigit_digit (n : Nat) (h : n < 16) :
    fromHexDigit (if n < 10 then Char.ofNat (48 + n) else Char.ofNat (87 + n)) = some n := by
  interval_cases n <;> decide

theorem parseJStr_escape (s rest : List Char) :
    parseJStr (escapeStr s ++ '"' :: rest) = some (s, rest) := by
  induction s with
  | nil =>
    unfold parseJStr escapeStr
    simp +decide
  | cons c t ih =>
    simp only [escapeStr] at ih ⊢
    rw [List.flatMap_cons, List.append_assoc]
    by_cases h1 : c = '"'
    · subst h1; unfold parseJStr; simp +decide [escapeChar, ih]
    by_cases h2 : c = '\\'
    · subst h2; unfold parseJStr; simp +decide [escapeChar, ih]
    by_cases h3 : c = '\n'
    · subst h3; unfold parseJStr; simp +decide [escapeChar, ih]
    by_cases h4 : c = '\r'
    · subst h4; unfold parseJStr; simp +decide [escapeChar, ih]
    by_cases h5 : c = '\t'
    · subst h5; unfold parseJStr; simp +decide [escapeChar, ih]
    by_cases h6 : c.toNat = 8
    · have hc : c = Char.ofNat 8 := by rw [← h6, Char.ofNat_toNat]
      subst hc; unfold parseJStr; simp +decide [escapeChar, ih]
    by_cases h7 : c.toNat = 12
    · have hc : c = Char.ofNat 12 := by rw [← h7, Char.ofNat_toNat]
      subst hc; unfold parseJStr; simp +decide [escapeChar, ih]
    by_cases h8 : c.toNat < 32
    · have he : escapeChar c =
          ['\\', 'u', '0', '0',
           (if c.toNat / 16 < 10 then Char.ofNat (48 + c.toNat / 16)
            else Char.ofNat (87 + c.toNat / 16)),
           (if c.toNat % 16 < 10 then Char.ofNat (48 + c.toNat % 16)
            else Char.ofNat (87 + c.toNat % 16))] := by
        rw [escapeChar]
        simp [h1, h2, h3, h4, h5, h6, h7, h8]
      rw [he]
      unfold parseJStr
      simp +decide only [List.cons_append, if_true, if_false]
      rw [fromHexDigit_digit (c.toNat / 16) (by omega),
          fromHexDigit_digit (c.toNat % 16) (by omega)]
      simp [ih, Nat.div_add_mod, Char.ofNat_toNat]
    · have he : escapeChar c = [c] := by
        rw [escapeChar]; simp [h1, h2, h3, h4, h5, h6, h7, h8]
      rw [he]
      unfold parseJStr
      simp only [List.cons_append, List.nil_append, if_neg h1, if_neg h2]
      simp [ih]

theorem entriesOfList_cons_some (k v : String) (t : List (String × Option String)) :
    entriesOfList ((k, some v) :: t) = (k, v) :: entriesOfList t := by
  simp [entriesOfList]

theorem entriesOfList_cons_none (k : String) (t : List (String × Option String)) :
    entriesOfList ((k, none) :: t) = entriesOfList t := by
  simp [entriesOfList]

theorem lookup_eq_none_of_not_mem_keys (l : List (String × String)) (k : String)
    (h : k ∉ l.map Prod.fst) : List.lookup k l = none := by
  induction l with
  | nil => rfl
  | cons q qs ih =>
    simp only [List.map_cons, List.mem_cons, not_or] at h
    have hb : (k == q.1) = false := by simp [h.1]
    simp [List.lookup, hb, ih h.2]

theorem keys_entriesOfList_sublist (l : List (String × Option String)) :
    ((entriesOfList l).map Prod.fst).Sublist (l.map Prod.fst) := by
  induction l with
  | nil => simp [entriesOfList]
  | cons kv t ih =>
    obtain ⟨k, v⟩ := kv
    cases v with
    | none =>
      rw [entriesOfList_cons_none]
      simp only [List.map_cons]
      exact ih.cons _
    | some s =>
      rw [entriesOfList_cons_some]
      simp only [List.map_cons]
      exact ih.cons₂ _

theorem lookup_entriesOfList (l : List (String × Option String)) (k : String)
    (h : (l.map Prod.fst).Nodup) :
    List.lookup k (entriesOfList l) = Option.join (List.lookup k l) := by
  induction l with
  | nil => rfl
  | cons kv t ih =>
    obtain ⟨k1, v1⟩ := kv
    simp only [List.map_cons, List.nodup_cons] at h
    obtain ⟨hk1, ht⟩ := h
    by_cases hk : k = k1
    · subst hk
      cases v1 with
      | some s =>
        rw [entriesOfList_cons_some]
        simp [List.lookup, Option.join]
      | none =>
        rw [entriesOfList_cons_none]
        have hnm : k ∉ (entriesOfList t).map Prod.fst :=
          fun hm => hk1 ((keys_entriesOfList_sublist t).subset hm)
        simp [List.lookup, lookup_eq_none_of_not_mem_keys _ _ hnm, Option.join]
    · have hb : (k == k1) = false := by simp [hk]
      cases v1 with
      | some s =>
        rw [entriesOfList_cons_some]
        simp [List.lookup, hb, ih ht]
      | none =>
        rw [entriesOfList_cons_none]
        simp [List.lookup, hb, ih ht]

theorem mem_keys_insortPair (p : String × String) (l : List (String × String)) (x : String) :
    x ∈ (insortPair p l).map Prod.fst ↔ x = p.1 ∨ x ∈ l.map Prod.fst := by
  induction l with
  | nil => simp [insortPair]
  | cons q qs ih =>
    unfold insortPair
    by_cases hle : keyLe p.1 q.1 = true
    · simp [hle]
    · rw [if_neg hle]
      simp only [List.map_cons, List.mem_cons, ih]
      tauto

theorem lookup_insortPair (p : String × String) (l : List (String × String)) (k : String)
    (hp : p.1 ∉ l.map Prod.fst) :
    List.lookup k (insortPair p l) = List.lookup k (p :: l) := by
  induction l with
  | nil => rfl
  | cons q qs ih =>
    simp only [List.map_cons, List.mem_cons, not_or] at hp
    obtain ⟨hpq, hp2⟩ := hp
    unfold insortPair
    by_cases hle : keyLe p.1 q.1 = true
    · simp [hle]
    · rw [if_neg hle]
      by_cases hkq : k = q.1
      · have hb1 : (k == q.1) = true := by simp [hkq]
        have hb2 : (k == p.1) = false := by
          simp [show ¬ k = p.1 from fun h => hpq (h.symm.trans hkq)]
        simp [List.lookup, hb1, hb2]
      · by_cases hkp : k = p.1
        · have hb1 : (k == q.1) = false := by simp [hkq]
          have hb2 : (k == p.1) = true := by simp [hkp]
          simp [List.lookup, hb1, hb2, ih hp2]
        · have hb1 : (k == q.1) = false := by simp [hkq]
          have hb2 : (k == p.1) = false := by simp [hkp]
          simp [List.lookup, hb1, hb2, ih hp2]

theorem mem_keys_sortPairs (l : List (String × String)) (x : String) :
    x ∈ (sortPairs l).map Prod.fst ↔ x ∈ l.map Prod.fst := by
  induction l with
  | nil => simp [sortPairs]
  | cons p t ih =>
    unfold sortPairs
    rw [mem_keys_insortPair]
    simp [ih]

theorem lookup_sortPairs (l : List (String × String)) (k : String)
    (h : (l.map Prod.fst).Nodup) :
    List.lookup k (sortPairs l) = List.lookup k l := by
  induction l with
  | nil => rfl
  | cons p t ih =>
    simp only [List.map_cons, List.nodup_cons] at h
    obtain ⟨hp, ht⟩ := h
    unfold sortPairs
    rw [lookup_insortPair _ _ _ (fun hm => hp ((mem_keys_sortPairs t p.1).mp hm))]
    by_cases hk : k = p.1
    · have hb : (k == p.1) = true := by simp [hk]
      simp [List.lookup, hb]
    · have hb : (k == p.1) = false := by simp [hk]
      simp [List.lookup, hb, ih ht]

theorem pairsChars_cons_head (p : String × String) (ps : List (String × String)) :
    ∃ l, pairsChars (p :: ps) = '"' :: l := by
  obtain ⟨k, v⟩ := p
  cases ps with
  | nil =>
    exact ⟨escapeStr k.data ++ '"' :: ':' :: '"' :: (escapeStr v.data ++ ['"', '\x7d']),
      by simp [pairsChars, pairChars]⟩
  | cons q qs =>
    exact ⟨escapeStr k.data ++ '"' :: ':' :: '"' ::
        (escapeStr v.data ++ '"' :: ',' :: pairsChars (q :: qs)),
      by simp [pairsChars, pairChars]⟩

theorem length_le_pairsChars (ps : List (String × String)) :
    ps.length ≤ (pairsChars ps).length := by
  induction ps with
  | nil => simp [pairsChars]
  | cons p t ih =>
    obtain ⟨k, v⟩ := p
    cases t with
    | nil => simp [pairsChars]
    | cons q qs =>
      simp only [pairsChars, List.length_append, List.length_cons] at ih ⊢
      omega

theorem parsePairs_roundtrip (ps : List (String × String)) (fuel : Nat)
    (hne : ps ≠ []) (hlen : ps.length ≤ fuel) :
    parsePairs fuel (pairsChars ps) = some ps := by
  induction ps generalizing fuel with
  | nil => cases hne rfl
  | cons p t ih =>
    obtain ⟨k, v⟩ := p
    cases fuel with
    | zero => simp at hlen
    | succ f =>
      cases t with
      | nil =>
        unfold parsePairs pairsChars pairChars
        simp +decide [List.append_assoc, parseJStr_escape, string_mk_data]
      | cons q qs =>
        unfold parsePairs pairsChars pairChars
        simp +decide [List.append_assoc, parseJStr_escape, string_mk_data,
          ih f (by simp) (by simp only [List.length_cons] at hlen ⊢; omega)]

theorem decodeEntries_stringify (ps : List (String × String)) :
    decodeEntries (stringifyEntries ps) = some ps := by
  cases ps with
  | nil => rfl
  | cons p t =>
    obtain ⟨l, hl⟩ := pairsChars_cons_head p t
    rw [show decodeEntries (stringifyEntries (p :: t)) =
        (if pairsChars (p :: t) = ['\x7d'] then some [] else
          parsePairs (pairsChars (p :: t)).length (pairsChars (p :: t))) from rfl]
    rw [if_neg (by rw [hl]; simp +decide)]
    exact parsePairs_roundtrip _ _ (by simp) (length_le_pairsChars (p :: t))

theorem nodup_keys_fieldsOf (e : RuntimeEnv) : ((fieldsOf e).map Prod.fst).Nodup := by
  simp only [fieldsOf, List.map_cons, List.map_nil]
  decide

theorem nodup_keys_definedEntries (e : RuntimeEnv) :
    ((definedEntries e).map Prod.fst).Nodup :=
  (keys_entriesOfList_sublist (fieldsOf e)).nodup (nodup_keys_fieldsOf e)

theorem lookup_serialized (e : RuntimeEnv) (k : String) :
    List.lookup k (sortPairs (definedEntries e)) =
      Option.join (List.lookup k (fieldsOf e)) := by
  rw [lookup_sortPairs _ _ (nodup_keys_definedEntries e)]
  exact lookup_entriesOfList _ _ (nodup_keys_fieldsOf e)

theorem decodeEnv_serializeEnv (e : RuntimeEnv) : decodeEnv (serializeEnv e) = some e := by
  unfold decodeEnv serializeEnv
  rw [decodeEntries_stringify]
  obtain ⟨f1, f2, f3, f4, f5, f6, f7⟩ := e
  simp only [Option.map_some', Option.some.injEq, RuntimeEnv.mk.injEq]
  refine ⟨?_, ?_, ?_, ?_, ?_, ?_, ?_⟩ <;>
    (rw [lookup_serialized]; simp +decide [fieldsOf, List.lookup, Option.join])

theorem serializeEnv_inj (e1 e2 : RuntimeEnv) (h : serializeEnv e1 = serializeEnv e2) :
    e1 = e2 := by
  have h2 := congrArg decodeEnv h
  rw [decodeEnv_serializeEnv, decodeEnv_serializeEnv] at h2
  exact Option.some.inj h2

/-- The module-level cache state of `src/worker.ts` (`cachedEnvSignature` and
`cachedMastraPromise`).  The cached runtime is modelled by the number of the
construction that produced it: instance `n` is the `n`-th runtime ever built,
so identity equality of instances is equality of numbers, and `counter` counts
all constructions performed so far. -/
structure CacheState where
  cachedEnvSignature : Option String
  cachedMastra : Option Nat
  counter : Nat
deriving DecidableEq, Repr

/-- The state at module initialization: both cache variables are `null`. -/
def initialCache : CacheState :=
  { cachedEnvSignature := none, cachedMastra := none, counter := 0 }

/-- JavaScript falsiness of a nullable string (`!x` holds for `undefined`,
`null` and the empty string). -/
def strFalsy : Option String → Bool
  | none => true
  | some s => s == ""

/-- `getMastra` from `src/worker.ts`: rebuild (and cache) the runtime when
there is no truthy cached signature, the signature changed, or no promise is
cached; otherwise return the cached instance. -/
def getMastra (env : Bindings) (st : CacheState) : Nat × CacheState :=
  let sig := serializeEnv (buildRuntimeEnv env)
  if strFalsy st.cachedEnvSignature = false ∧ st.cachedEnvSignature = some sig ∧
      st.cachedMastra.isSome then
    (st.cachedMastra.getD 0, st)
  else
    (st.counter,
     { cachedEnvSignature := some sig, cachedMastra := some st.counter,
       counter := st.counter + 1 })

/-- Reachable cache states number their cached instance below the counter
(no instance is cached before it has been constructed). -/
def CacheWF (st : CacheState) : Prop :=
  ∀ i, st.cachedMastra = some i → i < st.counter

/-- Message roles accepted by `sceneScriptSchema`
(`z.enum(["user", "assistant", "system"])`). -/
inductive Role where
  | user
  | assistant
  | system
deriving DecidableEq, Repr

/-- A validated chat message of the scene-script request. -/
structure Msg where
  role : Role
  content : String
deriving DecidableEq, Repr

/-- A validated scene-script request body. -/
structure SceneInput where
  prompt : Option String
  messages : Option (List Msg)
  threadId : Option String
  resourceId : Option String
deriving DecidableEq, Repr

/-- A validated weather request body. -/
structure WeatherInput where
  prompt : String
deriving DecidableEq, Repr

/-- A zod validation failure.  `issues` stands for the issue list that
`error.flatten()` exposes; the individual issue texts are the library's own
and are modelled only as opaque strings. -/
structure ZodError where
  issues : List String
deriving DecidableEq, Repr

/-- `z.string().min(1).max(4000)` applied to a JSON field value. -/
def parseBoundedString (j : Json) : Except ZodError String :=
  match j with
  | .str s =>
    if s.length < 1 then .error ⟨["String must contain at least 1 character(s)"]⟩
    else if 4000 < s.length then
      .error ⟨["String must contain at most 4000 character(s)"]⟩
    else .ok s
  | _ => .error ⟨["Expected string"]⟩

/-- `z.enum(["user", "assistant", "system"])` applied to a JSON field value. -/
def parseRole (j : Json) : Except ZodError Role :=
  match j with
  | .str s =>
    if s = "user" then .ok .user
    else if s = "assistant" then .ok .assistant
    else if s = "system" then .ok .system
    else .error ⟨["Invalid enum value"]⟩
  | _ => .error ⟨["Invalid enum value"]⟩

/-- One element of the `messages` array of `sceneScriptSchema`:
`z.object({ role: z.enum([...]), content: z.string().min(1) })`.  zod
aggregates issues across fields where this model stops at the first, but the
two agree on acceptance. -/
def parseMessage (j : Json) : Except ZodError Msg :=
  match j with
  | .obj _ =>
    match Json.lookup j "role" with
    | none => .error ⟨["Required"]⟩
    | some r =>
      match parseRole r with
      | .error e => .error e
      | .ok role =>
        match Json.lookup j "content" with
        | none => .error ⟨["Required"]⟩
        | some (.str s) =>
          if s.length < 1 then
            .error ⟨["String must contain at least 1 character(s)"]⟩
          else .ok { role := role, content := s }
        | some _ => .error ⟨["Expected string"]⟩
  | _ => .error ⟨["Expected object"]⟩

/-- Element-wise validation of the `messages` array. -/
def parseMessages : List Json → Except ZodError (List Msg)
  | [] => .ok []
  | j :: t =>
    match parseMessage j, parseMessages t with
    | .ok m, .ok ms => .ok (m :: ms)
    | .error e, _ => .error e
    | .ok _, .error e => .error e

/-- `z.string().optional()` on an object field: absent passes as `undefined`,
a string passes, anything else (including `null`) fails. -/
def parseOptionalString (v : Option Json) : Except ZodError (Option String) :=
  match v with
  | none => .ok none
  | some (.str s) => .ok (some s)
  | some _ => .error ⟨["Expected string"]⟩

/-- `z.string().min(1).max(4000).optional()` on an object field. -/
def parseOptionalPrompt (v : Option Json) : Except ZodError (Option String) :=
  match v with
  | none => .ok none
  | some j => (parseBoundedString j).map some

/-- `z.array(...).optional()` on the `messages` field. -/
def parseOptionalMessages (v : Option Json) : Except ZodError (Option (List Msg)) :=
  match v with
  | none => .ok none
  | some (.arr l) => (parseMessages l).map some
  | some _ => .error ⟨["Expected array"]⟩

/-- JavaScript truthiness of the parsed optional prompt
(`Boolean(value.prompt)`; the empty string is falsy). -/
def promptTruthy : Option String → Bool
  | none => false
  | some s => !(s == "")

/-- `sceneScriptSchema.parse` from `src/worker.ts`: an object with optional
`prompt` (1-4000 chars), optional `messages` array, optional string
`threadId`/`resourceId`, refined by
`Boolean(value.prompt) || (value.messages && value.messages.length > 0)`. -/
def sceneScriptParse (body : Json) : Except ZodError SceneInput :=
  match body with
  | .obj _ =>
    match parseOptionalPrompt (Json.lookup body "prompt") with
    | .error e => .error e
    | .ok prompt =>
      match parseOptionalMessages (Json.lookup body "messages") with
      | .error e => .error e
      | .ok messages =>
        match parseOptionalString (Json.lookup body "threadId") with
        | .error e => .error e
        | .ok threadId =>
          match parseOptionalString (Json.lookup body "resourceId") with
          | .error e => .error e
          | .ok resourceId =>
            if promptTruthy prompt = true ∨
                (match messages with
                 | some ms => decide (0 < ms.length)
                 | none => false) = true then
              .ok { prompt := prompt, messages := messages,
                    threadId := threadId, resourceId := resourceId }
            else .error ⟨["Provide either prompt or messages."]⟩
  | _ => .error ⟨["Expected object"]⟩

/-- `weatherSchema.parse` from `src/worker.ts`:
`z.object({ prompt: z.string().min(1).max(4000) })`. -/
def weatherParse (body : Json) : Except ZodError WeatherInput :=
  match body with
  | .obj _ =>
    match Json.lookup body "prompt" with
    | none => .error ⟨["Required"]⟩
    | some j => (parseBoundedString j).map (fun p => { prompt := p })
  | _ => .error ⟨["Expected object"]⟩

/-- An HTTP response as assembled by the worker: status, ordered header list,
and the JSON value passed to `JSON.stringify` (`none` for a null body). -/
structure Resp where
  status : Nat
  headers : List (String × String)
  body : Option Json

/-- The fixed CORS header triple of `src/worker.ts`. -/
def corsHeaders : List (String × String) :=
  [("Access-Control-Allow-Origin", "*"),
   ("Access-Control-Allow-Headers", "Content-Type, Authorization"),
   ("Access-Control-Allow-Methods", "GET,POST,OPTIONS")]

/-- `jsonResponse` from `src/worker.ts` (every call site passes a bare numeric
status, so the `ResponseInit` variant never adds extra headers): the
stringified body with the JSON content type and the three CORS headers. -/
def jsonResponse (data : Json) (status : Nat) : Resp :=
  { status := status
    headers := ("Content-Type", "application/json; charset=utf-8") :: corsHeaders
    body := some data }

/-- The memory options passed to `agent.generate` (thread and resource ids). -/
structure MemoryOpt where
  thread : String
  resource : String
deriving DecidableEq, Repr

/-- One invocation of an external agent: the message list handed to
`generate` and the optional memory binding. -/
structure GenCall where
  messages : List Msg
  memory : Option MemoryOpt
deriving DecidableEq, Repr

/-- The outcome of an external `agent.generate` call: resolved
text/usage/finish-reason, or a rejected promise carrying some error detail. -/
inductive GenOutcome where
  | ok (text : String) (usage : Json) (finishReason : String)
  | err (detail : String)

/-- The externally observable steps a handler takes against the runtime
layer, in order. -/
inductive Event where
  | resolveRuntime (sig : String)
  | lookupAgent (name : String)
  | constructAgent
  | setProcessEnvOpenAIKey (value : String)
  | generate (call : GenCall)
deriving DecidableEq, Repr

/-- Exceptions that can escape a POST handler into the router's catch block. -/
inductive WorkerError where
  | zod (e : ZodError)
  | jsonSyntax
  | other (detail : String)

/-- An incoming HTTP request: method, path, and the outcome of
`request.json()` (`Except.error` models a body whose JSON parse rejects with
`SyntaxError`; the body is irrelevant for non-POST dispatch). -/
structure Request where
  method : String
  path : String
  body : Except Unit Json

/-- The body of the scene-script misconfiguration response. -/
def openaiMissingBody : Json :=
  Json.obj [("error", Json.str "OPENAI_API_KEY not configured")]

/-- The message list handed to `agent.generate` by `handleSceneScript`: the
validated `messages`, or the prompt wrapped as a single user message (the
non-null assertion `input.prompt!` is modelled by a default). -/
def sceneMessages (input : SceneInput) : List Msg :=
  match input.messages with
  | some ms => ms
  | none => [{ role := .user, content := input.prompt.getD "" }]

/-- The full generate invocation of `handleSceneScript`: parsed messages plus
the memory binding derived from `threadId`/`resourceId` (resource defaults to
"scene-script"; no memory at all without a `threadId`). -/
def sceneCall (input : SceneInput) : GenCall :=
  { messages := sceneMessages input
    memory := input.threadId.map (fun t =>
      { thread := t, resource := input.resourceId.getD "scene-script" }) }

/-- `handleSceneScript` from `src/worker.ts`.  The `getMastra` call is
commented out in the source, so the handler never resolves the cached runtime
nor looks up a registered agent by name: after validation it requires a truthy
`OPENAI_API_KEY`, mirrors it into `process.env`, constructs a fresh agent with
`createSceneScriptAgent()` (always a truthy object, so the `!agent` guard is
dead) and invokes `generate` on it.  Returns the response or the escaped
exception, plus the event trace. -/
def handleSceneScript (req : Request) (env : Bindings)
    (oracle : GenCall → GenOutcome) : Except WorkerError Resp × List Event :=
  match req.body with
  | .error _ => (.error .jsonSyntax, [])
  | .ok body =>
    match sceneScriptParse body with
    | .error e => (.error (.zod e), [])
    | .ok input =>
      match env.OPENAI_API_KEY with
      | none => (.ok { status := 500, headers := corsHeaders,
                       body := some openaiMissingBody }, [])
      | some key =>
        if key == "" then
          (.ok { status := 500, headers := corsHeaders,
                 body := some openaiMissingBody }, [])
        else
          match oracle (sceneCall input) with
          | .ok text usage finishReason =>
            (.ok (jsonResponse (.obj [("text", .str text), ("usage", usage),
                ("finishReason", .str finishReason)]) 200),
             [.setProcessEnvOpenAIKey key, .constructAgent, .generate (sceneCall input)])
          | .err detail =>
            (.error (.other detail),
             [.setProcessEnvOpenAIKey key, .constructAgent, .generate (sceneCall input)])

/-- The single user message `handleWeather` hands to `agent.generate`. -/
def weatherCall (input : WeatherInput) : GenCall :=
  { messages := [{ role := .user, content := input.prompt }], memory := none }

/-- The runtime-layer steps `handleWeather` performs before generating:
resolve the cached runtime and look up the registered `weatherAgent`. -/
def weatherEvents (env : Bindings) (input : WeatherInput) : List Event :=
  [Event.resolveRuntime (serializeEnv (buildRuntimeEnv env)),
   Event.lookupAgent "weatherAgent", Event.generate (weatherCall input)]

/-- `handleWeather` from `src/worker.ts`: validate, resolve the cached runtime
with `getMastra`, look up the registered `weatherAgent` (always present on the
runtime built by `createMastra`, so the `!agent` guard is dead) and invoke it
with a single user message. -/
def handleWeather (req : Request) (env : Bindings) (st : CacheState)
    (oracle : GenCall → GenOutcome) :
    Except WorkerError Resp × CacheState × List Event :=
  match req.body with
  | .error _ => (.error .jsonSyntax, st, [])
  | .ok body =>
    match weatherParse body with
    | .error e => (.error (.zod e), st, [])
    | .ok input =>
      match oracle (weatherCall input) with
      | .ok text usage finishReason =>
        (.ok (jsonResponse (.obj [("text", .str text), ("usage", usage),
            ("finishReason", .str finishReason)]) 200), (getMastra env st).2,
         weatherEvents env input)
      | .err detail =>
        (.error (.other detail), (getMastra env st).2, weatherEvents env input)

/-- The result of one `fetch` dispatch: the response, the module cache state
afterwards, and the handler's event trace. -/
structure FetchOut where
  resp : Resp
  cache : CacheState
  events : List Event

/-- The router's catch block in `src/worker.ts`: `ZodError` becomes 400 with
the flattened issues, `SyntaxError` becomes 400 with a fixed body, and any
other error is logged server-side and becomes a constant 500 body. -/
def errorResponse : WorkerError → Resp
  | .zod e => jsonResponse (.obj [("error", .str "Invalid request payload"),
      ("issues", .arr (e.issues.map Json.str))]) 400
  | .jsonSyntax => jsonResponse (.obj [("error", .str "Invalid JSON body")]) 400
  | .other _ => jsonResponse (.obj [("error", .str "Internal Server Error")]) 500

/-- The worker's `fetch` entry point from `src/worker.ts`: OPTIONS preflight,
health check, the two POST handlers inside the try/catch boundary, and the
404 fallback. -/
def fetch (req : Request) (env : Bindings) (st : CacheState)
    (oracle : GenCall → GenOutcome) : FetchOut :=
  if req.method = "OPTIONS" then
    { resp := { status := 204, headers := corsHeaders, body := none },
      cache := st, events := [] }
  else if req.method = "GET" ∧ req.path = "/" then
    { resp := jsonResponse (.obj [("ok", .bool true),
        ("message", .str "Mastra worker is running")]) 200,
      cache := st, events := [] }
  else if req.method = "POST" ∧ req.path = "/api/scene-script" then
    match handleSceneScript req env oracle with
    | (.ok r, evs) => { resp := r, cache := st, events := evs }
    | (.error e, evs) => { resp := errorResponse e, cache := st, events := evs }
  else if req.method = "POST" ∧ req.path = "/api/weather" then
    match handleWeather req env st oracle with
    | (.ok r, st2, evs) => { resp := r, cache := st2, events := evs }
    | (.error e, st2, evs) => { resp := errorResponse e, cache := st2, events := evs }
  else
    { resp := jsonResponse (.obj [("error", .str "Not Found")]) 404,
      cache := st, events := [] }

/-- The headers record computed by the loop in `parseHeaders`
(`src/mastra/config/model.ts`): the string-valued entries, in order. -/
def stringEntries (fields : List (String × Json)) : List (String × String) :=
  fields.foldl (fun acc kv =>
    match kv.2 with
    | .str s => acc ++ [(kv.1, s)]
    | _ => acc) []

/-- The `LLM_EXTRA_HEADERS` environment variable as seen by `parseHeaders`:
`none` when the variable is unset or empty (both falsy), otherwise the outcome
of the `JSON.parse` attempt on it (`Except.error` for malformed JSON). -/
abbrev RawHeadersEnv := Option (Except Unit Json)

/-- `parseHeaders` from `src/mastra/config/model.ts`: a missing variable or a
caught parse failure yields `undefined`; a non-object or array value yields
`undefined`; an object value is reduced to its string-valued entries,
`undefined` when none remain. -/
def parseHeaders (raw : RawHeadersEnv) : Option (List (String × String)) :=
  match raw with
  | none => none
  | some (.error _) => none
  | some (.ok v) =>
    match v with
    | .obj fields =>
      let record := stringEntries fields
      if record.length ≠ 0 then some record else none
    | _ => none

/-- C8: the cache-key serialization is canonical with respect to deep value
equality: two runtime configurations produce identical `serializeEnv` strings
exactly when all their optional field values agree (i.e. the configurations
are equal as records); undefined fields are omitted and keys are emitted in
sorted order by construction, and a configuration record carries no insertion
order that could influence the key. -/
theorem C8_serializeEnv_canonical (e1 e2 : RuntimeEnv) :
    serializeEnv e1 = serializeEnv e2 ↔ e1 = e2 :=
  ⟨serializeEnv_inj e1 e2, fun h => by rw [h]⟩

theorem stringEntries_aux (fields : List (String × Json)) (acc : List (String × String)) :
    fields.foldl (fun acc kv =>
      match kv.2 with
      | .str s => acc ++ [(kv.1, s)]
      | _ => acc) acc =
    acc ++ fields.filterMap (fun kv =>
      match kv.2 with
      | .str s => some (kv.1, s)
      | _ => none) := by
  induction fields generalizing acc with
  | nil => simp
  | cons kv t ih =>
    obtain ⟨k, v⟩ := kv
    cases v <;> simp [ih, List.filterMap_cons]

/-- C9: header parsing is total over every possible state of the extra-headers
variable and never surfaces an error: a missing variable, a malformed blob
(whose parse failure is caught) and a non-object blob all silently yield no
headers, and an object blob yields exactly its string-valued entries — or no
headers when none remain. -/
theorem C9_parseHeaders_lenient (raw : RawHeadersEnv) :
    parseHeaders raw =
      match raw with
      | some (.ok (.obj fields)) =>
        (fun kept => if kept = [] then none else some kept)
          (fields.filterMap (fun kv =>
            match kv.2 with
            | .str s => some (kv.1, s)
            | _ => none))
      | _ => none := by
  match raw with
  | none => rfl
  | some (.error e) => rfl
  | some (.ok v) =>
    cases v with
    | obj fields =>
      have he : stringEntries fields = fields.filterMap (fun kv =>
          match kv.2 with
          | .str s => some (kv.1, s)
          | _ => none) := by
        simpa [stringEntries] using stringEntries_aux fields []
      by_cases hk : fields.filterMap (fun kv =>
          match kv.2 with
          | .str s => some (kv.1, s)
          | _ => none) = []
      · simp [parseHeaders, he, hk]
      · simp [parseHeaders, he, hk]
    | null => rfl
    | bool b => rfl
    | num n => rfl
    | str s => rfl
    | arr l => rfl

/-- C6: the weather validator accepts a body exactly when it carries a
`prompt` field holding a string of length between 1 and 4000 inclusive; in
particular a prompt of length 0 or above 4000 is rejected, and a body without
such a prompt (including any message-list variant) is rejected. -/
theorem C6_weather_validator (body : Json) :
    (∃ input, weatherParse body = .ok input) ↔
      ∃ p, Json.lookup body "prompt" = some (.str p) ∧
        1 ≤ p.length ∧ p.length ≤ 4000 := by
  constructor
  · rintro ⟨input, hin⟩
    cases body with
    | obj fields =>
      unfold weatherParse at hin
      rcases hl : Json.lookup (Json.obj fields) "prompt" with _ | j
      · rw [hl] at hin; exact Except.noConfusion hin
      · rw [hl] at hin
        cases j with
        | str s =>
          unfold parseBoundedString at hin
          dsimp only at hin
          by_cases h1 : s.length < 1
          · rw [if_pos h1] at hin; exact Except.noConfusion hin
          · rw [if_neg h1] at hin
            by_cases h2 : 4000 < s.length
            · rw [if_pos h2] at hin; exact Except.noConfusion hin
            · exact ⟨s, rfl, by omega, by omega⟩
        | null => exact Except.noConfusion hin
        | bool b => exact Except.noConfusion hin
        | num n => exact Except.noConfusion hin
        | arr l => exact Except.noConfusion hin
        | obj f2 => exact Except.noConfusion hin
    | null => exact Except.noConfusion hin
    | bool b => exact Except.noConfusion hin
    | num n => exact Except.noConfusion hin
    | str s => exact Except.noConfusion hin
    | arr l => exact Except.noConfusion hin
  · rintro ⟨p, hl, h1, h2⟩
    obtain ⟨fields, rfl⟩ : ∃ fields, body = .obj fields := by
      cases body with
      | obj fields => exact ⟨fields, rfl⟩
      | null => exact Option.noConfusion hl
      | bool b => exact Option.noConfusion hl
      | num n => exact Option.noConfusion hl
      | str s => exact Option.noConfusion hl
      | arr l => exact Option.noConfusion hl
    refine ⟨{ prompt := p }, ?_⟩
    unfold weatherParse
    rw [hl]
    unfold parseBoundedString
    dsimp only
    rw [if_neg (by omega), if_neg (by omega)]
    rfl

/-- C4: a scene-script body with a prompt of length 1..4000 and no `messages`
key (and with `threadId`/`resourceId` absent or strings) passes validation;
a body with no `prompt` key whose `messages` is absent or the empty array is
rejected. -/
theorem C4_prompt_requirement (body : Json) :
    (∀ p, Json.lookup body "prompt" = some (.str p) → 1 ≤ p.length → p.length ≤ 4000 →
      Json.lookup body "messages" = none →
      (Json.lookup body "threadId" = none ∨
        ∃ s, Json.lookup body "threadId" = some (.str s)) →
      (Json.lookup body "resourceId" = none ∨
        ∃ s, Json.lookup body "resourceId" = some (.str s)) →
      ∃ input, sceneScriptParse body = .ok input) ∧
    (Json.lookup body "prompt" = none →
      (Json.lookup body "messages" = none ∨ Json.lookup body "messages" = some (.arr [])) →
      ∀ input, sceneScriptParse body ≠ .ok input) := by
  constructor
  · intro p hp h1 h2 hm hthread hresource
    obtain ⟨fields, rfl⟩ : ∃ fields, body = .obj fields := by
      cases body with
      | obj fields => exact ⟨fields, rfl⟩
      | null => exact Option.noConfusion hp
      | bool b => exact Option.noConfusion hp
      | num n => exact Option.noConfusion hp
      | str s => exact Option.noConfusion hp
      | arr l => exact Option.noConfusion hp
    have hpe : (p == "") = false := by
      have hne : p ≠ "" := by
        intro h
        rw [h] at h1
        simp at h1
      simp [hne]
    have hpp : parseOptionalPrompt (some (Json.str p)) = .ok (some p) := by
      unfold parseOptionalPrompt parseBoundedString
      dsimp only
      rw [if_neg (by omega), if_neg (by omega)]
      rfl
    obtain ⟨vt, hth⟩ :
        ∃ vt, parseOptionalString (Json.lookup (Json.obj fields) "threadId") = .ok vt := by
      rcases hthread with ht | ⟨s, ht⟩ <;> rw [ht] <;> exact ⟨_, rfl⟩
    obtain ⟨vr, hre⟩ :
        ∃ vr, parseOptionalString (Json.lookup (Json.obj fields) "resourceId") = .ok vr := by
      rcases hresource with hr | ⟨s2, hr⟩ <;> rw [hr] <;> exact ⟨_, rfl⟩
    unfold sceneScriptParse
    try dsimp only
    rw [hp, hpp]
    try dsimp only
    rw [hm]
    try dsimp only
    rw [hth]
    try dsimp only
    rw [hre]
    try dsimp only [parseOptionalMessages]
    rw [if_pos (Or.inl (by simp [promptTruthy, hpe]))]
    exact ⟨_, rfl⟩
  · intro hp hm input hok
    obtain ⟨fields, rfl⟩ : ∃ fields, body = .obj fields := by
      cases body with
      | obj fields => exact ⟨fields, rfl⟩
      | null => exact Except.noConfusion hok
      | bool b => exact Except.noConfusion hok
      | num n => exact Except.noConfusion hok
      | str s => exact Except.noConfusion hok
      | arr l => exact Except.noConfusion hok
    unfold sceneScriptParse at hok
    try dsimp only at hok
    rw [hp] at hok
    try dsimp only at hok
    rcases hm with hm | hm <;> rw [hm] at hok <;> try dsimp only at hok
    · rcases hth : parseOptionalString (Json.lookup (Json.obj fields) "threadId")
        with e | vt <;> rw [hth] at hok <;> try dsimp only at hok
      · exact Except.noConfusion hok
      · rcases hre : parseOptionalString (Json.lookup (Json.obj fields) "resourceId")
          with e | vr <;> rw [hre] at hok <;> try dsimp only at hok
        · exact Except.noConfusion hok
        · try dsimp only [parseOptionalPrompt, parseOptionalMessages, parseMessages,
            Except.map] at hok
          rw [if_neg (by simp [promptTruthy])] at hok
          exact Except.noConfusion hok
    · rcases hth : parseOptionalString (Json.lookup (Json.obj fields) "threadId")
        with e | vt <;> rw [hth] at hok <;> try dsimp only at hok
      · exact Except.noConfusion hok
      · rcases hre : parseOptionalString (Json.lookup (Json.obj fields) "resourceId")
          with e | vr <;> rw [hre] at hok <;> try dsimp only at hok
        · exact Except.noConfusion hok
        · try dsimp only [parseOptionalPrompt, parseOptionalMessages, parseMessages,
            Except.map] at hok
          rw [if_neg (by simp [promptTruthy])] at hok
          exact Except.noConfusion hok

/-- C4 witness: the body `{"prompt":"hello"}` validates, and the body
`{"messages":[]}` is rejected. -/
theorem C4_prompt_requirement_witness :
    (∃ input, sceneScriptParse (Json.obj [("prompt", Json.str "hello")]) = .ok input) ∧
    (∀ input, sceneScriptParse (Json.obj [("messages", Json.arr [])]) ≠ .ok input) := by
  constructor
  · exact (C4_prompt_requirement (Json.obj [("prompt", Json.str "hello")])).1
      "hello" rfl (by decide) (by decide) rfl (Or.inl rfl) (Or.inl rfl)
  · exact (C4_prompt_requirement (Json.obj [("messages", Json.arr [])])).2
      rfl (Or.inr rfl)

/-- C3 counterexample: the claim says a message whose content is a non-empty
ordered sequence of text parts is accepted, but the validator rejects the body
`{"messages":[{"role":"user","content":[{"type":"text","text":"hi"}]}]}`
because `content` is constrained to `z.string().min(1)`. -/
theorem C3_counterexample :
    (sceneScriptParse (Json.obj [("messages", Json.arr [Json.obj
      [("role", Json.str "user"),
       ("content", Json.arr [Json.obj
         [("type", Json.str "text"), ("text", Json.str "hi")]])]])])).isOk = false := by
  rfl

/-- C3 (amended): the scene-script message validator accepts a message exactly
when it is an object whose `role` is one of user/assistant/system and whose
`content` is a non-empty string; content given as an array or object is
rejected regardless of being non-empty, as is an empty string. -/
theorem C3_message_content (j : Json) :
    (∃ m, parseMessage j = .ok m) ↔
      ∃ r c, Json.lookup j "role" = some (.str r) ∧
        (r = "user" ∨ r = "assistant" ∨ r = "system") ∧
        Json.lookup j "content" = some (.str c) ∧ 1 ≤ c.length := by
  constructor
  · rintro ⟨m, hm⟩
    cases j with
    | obj fields =>
      unfold parseMessage at hm
      try dsimp only at hm
      rcases hr : Json.lookup (Json.obj fields) "role" with _ | r <;> rw [hr] at hm <;>
        try dsimp only at hm
      · exact Except.noConfusion hm
      · rcases hrr : parseRole r with e | role <;> rw [hrr] at hm <;> try dsimp only at hm
        · exact Except.noConfusion hm
        · obtain ⟨s, rfl, hs⟩ : ∃ s, r = .str s ∧
              (s = "user" ∨ s = "assistant" ∨ s = "system") := by
            cases r with
            | str s =>
              refine ⟨s, rfl, ?_⟩
              unfold parseRole at hrr
              dsimp only at hrr
              by_cases hu : s = "user"
              · exact Or.inl hu
              · rw [if_neg hu] at hrr
                by_cases ha : s = "assistant"
                · exact Or.inr (Or.inl ha)
                · rw [if_neg ha] at hrr
                  by_cases hy : s = "system"
                  · exact Or.inr (Or.inr hy)
                  · rw [if_neg hy] at hrr
                    exact Except.noConfusion hrr
            | null => exact Except.noConfusion hrr
            | bool b => exact Except.noConfusion hrr
            | num n => exact Except.noConfusion hrr
            | arr l => exact Except.noConfusion hrr
            | obj f2 => exact Except.noConfusion hrr
          rcases hc : Json.lookup (Json.obj fields) "content" with _ | jc <;>
            rw [hc] at hm <;> try dsimp only at hm
          · exact Except.noConfusion hm
          · cases jc with
            | str c =>
              try dsimp only at hm
              by_cases hlen : c.length < 1
              · rw [if_pos hlen] at hm
                exact Except.noConfusion hm
              · exact ⟨s, c, rfl, hs, rfl, by omega⟩
            | null => exact Except.noConfusion hm
            | bool b => exact Except.noConfusion hm
            | num n => exact Except.noConfusion hm
            | arr l => exact Except.noConfusion hm
            | obj f2 => exact Except.noConfusion hm
    | null => exact Except.noConfusion hm
    | bool b => exact Except.noConfusion hm
    | num n => exact Except.noConfusion hm
    | str s => exact Except.noConfusion hm
    | arr l => exact Except.noConfusion hm
  · rintro ⟨r, c, hr, hrole, hc, hlen⟩
    obtain ⟨fields, rfl⟩ : ∃ fields, j = .obj fields := by
      cases j with
      | obj fields => exact ⟨fields, rfl⟩
      | null => exact Option.noConfusion hr
      | bool b => exact Option.noConfusion hr
      | num n => exact Option.noConfusion hr
      | str s => exact Option.noConfusion hr
      | arr l => exact Option.noConfusion hr
    have hpr : ∃ role, parseRole (.str r) = .ok role := by
      rcases hrole with rfl | rfl | rfl <;> exact ⟨_, rfl⟩
    obtain ⟨role, hpr⟩ := hpr
    refine ⟨{ role := role, content := c }, ?_⟩
    unfold parseMessage
    try dsimp only
    rw [hr]
    try dsimp only
    rw [hpr]
    try dsimp only
    rw [hc]
    try dsimp only
    rw [if_neg (by omega)]

theorem buildRuntimeEnv_id (env : Bindings) : buildRuntimeEnv env = env := rfl

theorem serializeEnv_ne_empty (e : RuntimeEnv) : (serializeEnv e == "") = false := by
  have hne : serializeEnv e ≠ "" := by
    intro h
    have hd := congrArg String.data h
    simp only [serializeEnv, stringifyEntries] at hd
    exact List.noConfusion hd
  simp [hne]

theorem getMastra_hit (env : Bindings) (st : CacheState) (i : Nat)
    (h1 : st.cachedEnvSignature = some (serializeEnv (buildRuntimeEnv env)))
    (h2 : st.cachedMastra = some i) :
    getMastra env st = (i, st) := by
  unfold getMastra
  rw [if_pos ⟨by simp [h1, strFalsy, serializeEnv_ne_empty], h1, by simp [h2]⟩]
  simp [h2]

theorem getMastra_miss (env : Bindings) (st : CacheState)
    (h : st.cachedEnvSignature ≠ some (serializeEnv (buildRuntimeEnv env))) :
    getMastra env st =
      (st.counter,
       { cachedEnvSignature := some (serializeEnv (buildRuntimeEnv env)),
         cachedMastra := some st.counter, counter := st.counter + 1 }) := by
  unfold getMastra
  rw [if_neg (fun hc => h hc.2.1)]

theorem getMastra_first (env : Bindings) (st : CacheState) :
    (getMastra env st).2.cachedEnvSignature = some (serializeEnv (buildRuntimeEnv env)) ∧
    (getMastra env st).2.cachedMastra = some (getMastra env st).1 ∧
    (getMastra env st).2.counter ≤ st.counter + 1 ∧
    (CacheWF st → (getMastra env st).1 < (getMastra env st).2.counter) := by
  by_cases h : st.cachedEnvSignature = some (serializeEnv (buildRuntimeEnv env))
  · rcases hc : st.cachedMastra with _ | i
    · unfold getMastra
      rw [if_neg (fun hcon => by rw [hc] at hcon; simp at hcon)]
      exact ⟨rfl, rfl, Nat.le_refl _, fun _ => Nat.lt_succ_self _⟩
    · rw [getMastra_hit env st i h hc]
      exact ⟨h, hc, Nat.le_succ _, fun hwf => hwf i hc⟩
  · rw [getMastra_miss env st h]
    exact ⟨rfl, rfl, Nat.le_refl _, fun _ => Nat.lt_succ_self _⟩

/-- C2: runtime-cache behaviour of `getMastra` from any well-formed cache
state.  When two sequential calls resolve configurations with identical
serialized signatures, the pair of calls performs at most one construction,
the second call returns the identity-equal cached instance, and the state is
unchanged by the second call.  When the second configuration differs from the
first in the API-key binding only, the second call replaces the cached entry
with a freshly constructed instance: the construction counter advances by
exactly one and the returned instance differs from the first. -/
theorem C2_getMastra_cache (env1 env2 : Bindings) (st : CacheState) (hwf : CacheWF st) :
    (serializeEnv (buildRuntimeEnv env1) = serializeEnv (buildRuntimeEnv env2) →
      (getMastra env2 (getMastra env1 st).2).1 = (getMastra env1 st).1 ∧
      (getMastra env2 (getMastra env1 st).2).2 = (getMastra env1 st).2 ∧
      (getMastra env1 st).2.counter ≤ st.counter + 1) ∧
    (env1.LLM_API_KEY ≠ env2.LLM_API_KEY →
      env1.LLM_MODEL_ID = env2.LLM_MODEL_ID → env1.LLM_BASE_URL = env2.LLM_BASE_URL →
      env1.OPENAI_API_KEY = env2.OPENAI_API_KEY →
      env1.LLM_EXTRA_HEADERS = env2.LLM_EXTRA_HEADERS →
      env1.LIBSQL_URL = env2.LIBSQL_URL → env1.LIBSQL_AUTH_TOKEN = env2.LIBSQL_AUTH_TOKEN →
      (getMastra env2 (getMastra env1 st).2).2.counter = (getMastra env1 st).2.counter + 1 ∧
      (getMastra env2 (getMastra env1 st).2).2.cachedMastra =
        some (getMastra env2 (getMastra env1 st).2).1 ∧
      (getMastra env2 (getMastra env1 st).2).1 ≠ (getMastra env1 st).1) := by
  obtain ⟨hsig, hinst, hcount, hlt⟩ := getMastra_first env1 st
  constructor
  · intro hs
    have hhit := getMastra_hit env2 (getMastra env1 st).2 (getMastra env1 st).1
      (by rw [hsig, hs]) hinst
    rw [hhit]
    exact ⟨rfl, rfl, hcount⟩
  · intro hk h1 h2 h3 h4 h5 h6
    have hne : serializeEnv (buildRuntimeEnv env1) ≠ serializeEnv (buildRuntimeEnv env2) := by
      intro h
      have := serializeEnv_inj _ _ h
      rw [buildRuntimeEnv_id, buildRuntimeEnv_id] at this
      rw [this] at hk
      exact hk rfl
    have hmiss := getMastra_miss env2 (getMastra env1 st).2
      (by rw [hsig]; intro h; exact hne (Option.some.inj h))
    rw [hmiss]
    refine ⟨rfl, rfl, ?_⟩
    have := hlt hwf
    simp only []
    omega

/-- C2 witness: from the empty module state, two calls with the same bindings
return the same instance with one construction in total, and a third call
whose bindings differ only in `LLM_API_KEY` performs exactly one further
construction and returns a different instance. -/
theorem C2_getMastra_cache_witness :
    ((getMastra ⟨some "m", none, some "k1", none, none, none, none⟩
        (getMastra ⟨some "m", none, some "k1", none, none, none, none⟩ initialCache).2).1 =
      (getMastra ⟨some "m", none, some "k1", none, none, none, none⟩ initialCache).1) ∧
    ((getMastra ⟨some "m", none, some "k2", none, none, none, none⟩
        (getMastra ⟨some "m", none, some "k1", none, none, none, none⟩ initialCache).2).2.counter =
      (getMastra ⟨some "m", none, some "k1", none, none, none, none⟩ initialCache).2.counter + 1) := by
  have hwf : CacheWF initialCache := by
    intro i h
    simp [initialCache] at h
  refine ⟨((C2_getMastra_cache ⟨some "m", none, some "k1", none, none, none, none⟩
    ⟨some "m", none, some "k1", none, none, none, none⟩ initialCache hwf).1 rfl).1, ?_⟩
  exact ((C2_getMastra_cache ⟨some "m", none, some "k1", none, none, none, none⟩
    ⟨some "m", none, some "k2", none, none, none, none⟩ initialCache hwf).2
    (by simp) rfl rfl rfl rfl rfl rfl).1

theorem handleSceneScript_syntaxErr (req : Request) (env : Bindings)
    (oracle : GenCall → GenOutcome) (hb : req.body = .error ()) :
    handleSceneScript req env oracle = (.error .jsonSyntax, []) := by
  unfold handleSceneScript
  rw [hb]

theorem handleSceneScript_zod (req : Request) (env : Bindings)
    (oracle : GenCall → GenOutcome) (body : Json) (e : ZodError)
    (hb : req.body = .ok body) (hv : sceneScriptParse body = .error e) :
    handleSceneScript req env oracle = (.error (.zod e), []) := by
  unfold handleSceneScript
  rw [hb]
  try dsimp only
  rw [hv]

theorem handleSceneScript_noKey (req : Request) (env : Bindings)
    (oracle : GenCall → GenOutcome) (body : Json) (input : SceneInput)
    (hb : req.body = .ok body) (hv : sceneScriptParse body = .ok input)
    (hk : env.OPENAI_API_KEY = none) :
    handleSceneScript req env oracle =
      (.ok { status := 500, headers := corsHeaders, body := some openaiMissingBody }, []) := by
  unfold handleSceneScript
  rw [hb]
  try dsimp only
  rw [hv]
  try dsimp only
  rw [hk]

theorem handleSceneScript_run (req : Request) (env : Bindings)
    (oracle : GenCall → GenOutcome) (body : Json) (input : SceneInput) (key : String)
    (hb : req.body = .ok body) (hv : sceneScriptParse body = .ok input)
    (hk : env.OPENAI_API_KEY = some key) (hk2 : (key == "") = false) :
    handleSceneScript req env oracle =
      (match oracle (sceneCall input) with
       | .ok text usage finishReason =>
         (.ok (jsonResponse (.obj [("text", .str text), ("usage", usage),
             ("finishReason", .str finishReason)]) 200),
          [.setProcessEnvOpenAIKey key, .constructAgent, .generate (sceneCall input)])
       | .err detail =>
         (.error (.other detail),
          [.setProcessEnvOpenAIKey key, .constructAgent, .generate (sceneCall input)])) := by
  unfold handleSceneScript
  rw [hb]
  try dsimp only
  rw [hv]
  try dsimp only
  rw [hk]
  try dsimp only
  rw [if_neg (by simp [hk2])]

theorem handleWeather_syntaxErr (req : Request) (env : Bindings) (st : CacheState)
    (oracle : GenCall → GenOutcome) (hb : req.body = .error ()) :
    handleWeather req env st oracle = (.error .jsonSyntax, st, []) := by
  unfold handleWeather
  rw [hb]

theorem handleWeather_zod (req : Request) (env : Bindings) (st : CacheState)
    (oracle : GenCall → GenOutcome) (body : Json) (e : ZodError)
    (hb : req.body = .ok body) (hv : weatherParse body = .error e) :
    handleWeather req env st oracle = (.error (.zod e), st, []) := by
  unfold handleWeather
  rw [hb]
  try dsimp only
  rw [hv]

theorem handleWeather_run (req : Request) (env : Bindings) (st : CacheState)
    (oracle : GenCall → GenOutcome) (body : Json) (input : WeatherInput)
    (hb : req.body = .ok body) (hv : weatherParse body = .ok input) :
    handleWeather req env st oracle =
      (match oracle (weatherCall input) with
       | .ok text usage finishReason =>
         (.ok (jsonResponse (.obj [("text", .str text), ("usage", usage),
             ("finishReason", .str finishReason)]) 200), (getMastra env st).2,
          weatherEvents env input)
       | .err detail =>
         (.error (.other detail), (getMastra env st).2, weatherEvents env input)) := by
  unfold handleWeather
  rw [hb]
  try dsimp only
  rw [hv]

theorem fetch_scene (req : Request) (env : Bindings) (st : CacheState)
    (oracle : GenCall → GenOutcome)
    (hm : req.method = "POST") (hp : req.path = "/api/scene-script") :
    fetch req env st oracle =
      (match handleSceneScript req env oracle with
       | (.ok r, evs) => { resp := r, cache := st, events := evs }
       | (.error e, evs) => { resp := errorResponse e, cache := st, events := evs }) := by
  unfold fetch
  rw [hm, hp]
  rw [if_neg (by decide), if_neg (by decide), if_pos (by exact ⟨rfl, rfl⟩)]

theorem fetch_weather (req : Request) (env : Bindings) (st : CacheState)
    (oracle : GenCall → GenOutcome)
    (hm : req.method = "POST") (hp : req.path = "/api/weather") :
    fetch req env st oracle =
      (match handleWeather req env st oracle with
       | (.ok r, st2, evs) => { resp := r, cache := st2, events := evs }
       | (.error e, st2, evs) => { resp := errorResponse e, cache := st2, events := evs }) := by
  unfold fetch
  rw [hm, hp]
  rw [if_neg (by decide), if_neg (by decide), if_neg (by decide),
    if_pos (by exact ⟨rfl, rfl⟩)]

/-- C10: for every POST /api/scene-script request whose body passes
validation, if the OPENAI_API_KEY binding is absent the worker responds 500
with body `{"error":"OPENAI_API_KEY not configured"}` and performs no agent
step at all (the event trace is empty), regardless of the other bindings —
in particular even with LLM_API_KEY present, as the witness instantiates. -/
theorem C10_missing_openai_key (req : Request) (env : Bindings) (st : CacheState)
    (oracle : GenCall → GenOutcome) (body : Json) (input : SceneInput)
    (hm : req.method = "POST") (hp : req.path = "/api/scene-script")
    (hb : req.body = .ok body) (hv : sceneScriptParse body = .ok input)
    (hk : env.OPENAI_API_KEY = none) :
    (fetch req env st oracle).resp.status = 500 ∧
    (fetch req env st oracle).resp.body = some openaiMissingBody ∧
    (fetch req env st oracle).events = [] := by
  rw [fetch_scene req env st oracle hm hp,
    handleSceneScript_noKey req env oracle body input hb hv hk]
  exact ⟨rfl, rfl, rfl⟩

/-- C10 witness: the concrete request `{"prompt":"hi"}` against bindings with
`LLM_API_KEY` present but `OPENAI_API_KEY` absent. -/
theorem C10_missing_openai_key_witness :
    (fetch { method := "POST", path := "/api/scene-script",
             body := .ok (Json.obj [("prompt", Json.str "hi")]) }
       ⟨none, none, some "legacy-key", none, none, none, none⟩ initialCache
       (fun _ => .ok "t" (Json.obj []) "stop")).resp.status = 500 ∧
    (fetch { method := "POST", path := "/api/scene-script",
             body := .ok (Json.obj [("prompt", Json.str "hi")]) }
       ⟨none, none, some "legacy-key", none, none, none, none⟩ initialCache
       (fun _ => .ok "t" (Json.obj []) "stop")).resp.body = some openaiMissingBody ∧
    (fetch { method := "POST", path := "/api/scene-script",
             body := .ok (Json.obj [("prompt", Json.str "hi")]) }
       ⟨none, none, some "legacy-key", none, none, none, none⟩ initialCache
       (fun _ => .ok "t" (Json.obj []) "stop")).events = [] :=
  C10_missing_openai_key _ _ initialCache _ (Json.obj [("prompt", Json.str "hi")])
    { prompt := some "hi", messages := none, threadId := none, resourceId := none }
    rfl rfl rfl rfl rfl

/-- C1 counterexample: on the valid request `{"prompt":"hi"}` with
OPENAI_API_KEY configured, the worker answers 200 but its trace never
resolves the cached runtime and never looks up an agent named
"sceneScriptAgent" (the handler builds a fresh agent directly), and the
runtime cache is untouched — contradicting the claimed
resolve-runtime-then-invoke-named-agent behaviour. -/
theorem C1_counterexample :
    ((fetch { method := "POST", path := "/api/scene-script",
              body := .ok (Json.obj [("prompt", Json.str "hi")]) }
        ⟨none, none, none, some "sk-test", none, none, none⟩ initialCache
        (fun _ => .ok "script" (Json.obj []) "stop")).resp.status = 200) ∧
    (Event.lookupAgent "sceneScriptAgent" ∉
      (fetch { method := "POST", path := "/api/scene-script",
               body := .ok (Json.obj [("prompt", Json.str "hi")]) }
         ⟨none, none, none, some "sk-test", none, none, none⟩ initialCache
         (fun _ => .ok "script" (Json.obj []) "stop")).events) ∧
    ((fetch { method := "POST", path := "/api/scene-script",
              body := .ok (Json.obj [("prompt", Json.str "hi")]) }
        ⟨none, none, none, some "sk-test", none, none, none⟩ initialCache
        (fun _ => .ok "script" (Json.obj []) "stop")).events.all
      (fun e => match e with
        | .resolveRuntime _ => false
        | .lookupAgent _ => false
        | _ => true) = true) ∧
    ((fetch { method := "POST", path := "/api/scene-script",
              body := .ok (Json.obj [("prompt", Json.str "hi")]) }
        ⟨none, none, none, some "sk-test", none, none, none⟩ initialCache
        (fun _ => .ok "script" (Json.obj []) "stop")).cache = initialCache) := by
  refine ⟨rfl, ?_, rfl, rfl⟩
  decide

/-- C1 (amended): for every POST /api/scene-script request whose body passes
validation and whose OPENAI_API_KEY binding is a non-empty string, with the
upstream generation succeeding, the handler does not resolve the cached
runtime and does not look up a registered agent by name; it mirrors the key
into the process environment, constructs a fresh scene-script agent and
invokes it with the parsed messages (or the prompt as a single user message)
plus the optional thread/resource memory binding, returning 200 JSON with
text, usage and finishReason, and leaving the runtime cache untouched. -/
theorem C1_scene_script_flow (req : Request) (env : Bindings) (st : CacheState)
    (body : Json) (input : SceneInput) (key text finishReason : String) (usage : Json)
    (oracle : GenCall → GenOutcome)
    (hm : req.method = "POST") (hp : req.path = "/api/scene-script")
    (hb : req.body = .ok body) (hv : sceneScriptParse body = .ok input)
    (hk : env.OPENAI_API_KEY = some key) (hk2 : (key == "") = false)
    (ho : ∀ c, oracle c = .ok text usage finishReason) :
    (fetch req env st oracle).resp =
      jsonResponse (.obj [("text", .str text), ("usage", usage),
        ("finishReason", .str finishReason)]) 200 ∧
    (fetch req env st oracle).events =
      [.setProcessEnvOpenAIKey key, .constructAgent, .generate (sceneCall input)] ∧
    (fetch req env st oracle).cache = st := by
  rw [fetch_scene req env st oracle hm hp,
    handleSceneScript_run req env oracle body input key hb hv hk hk2, ho]
  exact ⟨rfl, rfl, rfl⟩

/-- C1 amended-claim witness: the concrete request
`{"prompt":"hi","threadId":"t1"}` with a configured key and a succeeding
upstream. -/
theorem C1_scene_script_flow_witness :
    (fetch { method := "POST", path := "/api/scene-script",
             body := .ok (Json.obj [("prompt", Json.str "hi"),
               ("threadId", Json.str "t1")]) }
       ⟨none, none, none, some "sk-test", none, none, none⟩ initialCache
       (fun _ => .ok "script" (Json.obj []) "stop")).resp =
      jsonResponse (.obj [("text", .str "script"), ("usage", Json.obj []),
        ("finishReason", .str "stop")]) 200 ∧
    (fetch { method := "POST", path := "/api/scene-script",
             body := .ok (Json.obj [("prompt", Json.str "hi"),
               ("threadId", Json.str "t1")]) }
       ⟨none, none, none, some "sk-test", none, none, none⟩ initialCache
       (fun _ => .ok "script" (Json.obj []) "stop")).events =
      [.setProcessEnvOpenAIKey "sk-test", .constructAgent,
       .generate (sceneCall { prompt := some "hi", messages := none,
                              threadId := some "t1", resourceId := none })] ∧
    (fetch { method := "POST", path := "/api/scene-script",
             body := .ok (Json.obj [("prompt", Json.str "hi"),
               ("threadId", Json.str "t1")]) }
       ⟨none, none, none, some "sk-test", none, none, none⟩ initialCache
       (fun _ => .ok "script" (Json.obj []) "stop")).cache = initialCache :=
  C1_scene_script_flow _ _ initialCache
    (Json.obj [("prompt", Json.str "hi"), ("threadId", Json.str "t1")])
    { prompt := some "hi", messages := none, threadId := some "t1", resourceId := none }
    "sk-test" "script" "stop" (Json.obj []) _
    rfl rfl rfl rfl rfl rfl (fun _ => rfl)

/-- C5: error mapping of the two POST endpoints.  A JSON body parse failure
yields 400 `{"error":"Invalid JSON body"}`; a schema validation failure yields
400 with the fixed error kind and a structured `issues` field; any other
exception (modelled as the upstream generate rejecting with an arbitrary
detail) yields a constant 500 `{"error":"Internal Server Error"}` whose body
does not depend on the detail, so no stack trace or original error detail can
leak. -/
theorem C5_error_mapping (req : Request) (env : Bindings) (st : CacheState)
    (oracle : GenCall → GenOutcome)
    (hm : req.method = "POST")
    (hpath : req.path = "/api/scene-script" ∨ req.path = "/api/weather") :
    (req.body = .error () →
      (fetch req env st oracle).resp =
        jsonResponse (.obj [("error", .str "Invalid JSON body")]) 400) ∧
    (∀ body e, req.body = .ok body →
      (req.path = "/api/scene-script" → sceneScriptParse body = .error e →
        (fetch req env st oracle).resp =
          jsonResponse (.obj [("error", .str "Invalid request payload"),
            ("issues", .arr (e.issues.map Json.str))]) 400) ∧
      (req.path = "/api/weather" → weatherParse body = .error e →
        (fetch req env st oracle).resp =
          jsonResponse (.obj [("error", .str "Invalid request payload"),
            ("issues", .arr (e.issues.map Json.str))]) 400)) ∧
    (∀ detail body, req.body = .ok body → (∀ c, oracle c = .err detail) →
      (req.path = "/api/scene-script" →
        (∃ input, sceneScriptParse body = .ok input) →
        (∃ k, env.OPENAI_API_KEY = some k ∧ (k == "") = false) →
        (fetch req env st oracle).resp =
          jsonResponse (.obj [("error", .str "Internal Server Error")]) 500) ∧
      (req.path = "/api/weather" →
        (∃ input, weatherParse body = .ok input) →
        (fetch req env st oracle).resp =
          jsonResponse (.obj [("error", .str "Internal Server Error")]) 500)) := by
  refine ⟨?_, ?_, ?_⟩
  · intro hb
    rcases hpath with hsc | hw
    · rw [fetch_scene req env st oracle hm hsc,
        handleSceneScript_syntaxErr req env oracle hb]
      rfl
    · rw [fetch_weather req env st oracle hm hw,
        handleWeather_syntaxErr req env st oracle hb]
      rfl
  · intro body e hb
    constructor
    · intro hsc hv
      rw [fetch_scene req env st oracle hm hsc,
        handleSceneScript_zod req env oracle body e hb hv]
      rfl
    · intro hw hv
      rw [fetch_weather req env st oracle hm hw,
        handleWeather_zod req env st oracle body e hb hv]
      rfl
  · intro detail body hb ho
    constructor
    · rintro hsc ⟨input, hv⟩ ⟨k, hk, hk2⟩
      rw [fetch_scene req env st oracle hm hsc,
        handleSceneScript_run req env oracle body input k hb hv hk hk2, ho]
      rfl
    · rintro hw ⟨input, hv⟩
      rw [fetch_weather req env st oracle hm hw,
        handleWeather_run req env st oracle body input hb hv, ho]
      rfl

/-- C5 witness: on concrete requests, a malformed body to the weather endpoint
maps to 400 `Invalid JSON body`, an invalid scene-script body (`{}`) maps to
400 with issues, and a generate rejection on a valid weather body maps to the
constant 500. -/
theorem C5_error_mapping_witness :
    ((fetch { method := "POST", path := "/api/weather", body := .error () }
        ⟨none, none, none, none, none, none, none⟩ initialCache
        (fun _ => .err "boom")).resp =
      jsonResponse (.obj [("error", .str "Invalid JSON body")]) 400) ∧
    ((fetch { method := "POST", path := "/api/scene-script",
              body := .ok (Json.obj []) }
        ⟨none, none, none, none, none, none, none⟩ initialCache
        (fun _ => .err "boom")).resp =
      jsonResponse (.obj [("error", .str "Invalid request payload"),
        ("issues", .arr ((ZodError.mk ["Provide either prompt or messages."]).issues.map
          Json.str))]) 400) ∧
    ((fetch { method := "POST", path := "/api/weather",
              body := .ok (Json.obj [("prompt", Json.str "Paris")]) }
        ⟨none, none, none, none, none, none, none⟩ initialCache
        (fun _ => .err "boom")).resp =
      jsonResponse (.obj [("error", .str "Internal Server Error")]) 500) := by
  refine ⟨?_, ?_, ?_⟩
  · exact (C5_error_mapping _ _ initialCache _ rfl (Or.inr rfl)).1 rfl
  · exact (((C5_error_mapping _ _ initialCache _ rfl (Or.inl rfl)).2.1
      (Json.obj []) ⟨["Provide either prompt or messages."]⟩ rfl).1 rfl rfl)
  · exact (((C5_error_mapping _ _ initialCache _ rfl (Or.inr rfl)).2.2
      "boom" (Json.obj [("prompt", Json.str "Paris")]) rfl (fun _ => rfl)).2 rfl
      ⟨{ prompt := "Paris" }, rfl⟩)

theorem handleSceneScript_emptyKey (req : Request) (env : Bindings)
    (oracle : GenCall → GenOutcome) (body : Json) (input : SceneInput) (key : String)
    (hb : req.body = .ok body) (hv : sceneScriptParse body = .ok input)
    (hk : env.OPENAI_API_KEY = some key) (hke : (key == "") = true) :
    handleSceneScript req env oracle =
      (.ok { status := 500, headers := corsHeaders, body := some openaiMissingBody }, []) := by
  unfold handleSceneScript
  rw [hb]
  try dsimp only
  rw [hv]
  try dsimp only
  rw [hk]
  try dsimp only
  rw [if_pos hke]

theorem handleSceneScript_shape (req : Request) (env : Bindings)
    (oracle : GenCall → GenOutcome) :
    (∃ e evs, handleSceneScript req env oracle = (.error e, evs)) ∨
    (∃ d evs, handleSceneScript req env oracle = (.ok (jsonResponse d 200), evs)) ∨
    (∃ evs, handleSceneScript req env oracle =
      (.ok { status := 500, headers := corsHeaders, body := some openaiMissingBody }, evs)) := by
  obtain ⟨m, p, b⟩ := req
  cases b with
  | error u => exact Or.inl ⟨.jsonSyntax, [], rfl⟩
  | ok body =>
    rcases hv : sceneScriptParse body with e | input
    · exact Or.inl ⟨.zod e, [], handleSceneScript_zod _ env oracle body e rfl hv⟩
    · rcases hk : env.OPENAI_API_KEY with _ | key
      · exact Or.inr (Or.inr ⟨[], handleSceneScript_noKey _ env oracle body input rfl hv hk⟩)
      · by_cases hke : (key == "") = true
        · exact Or.inr (Or.inr ⟨[],
            handleSceneScript_emptyKey _ env oracle body input key rfl hv hk hke⟩)
        · have hke2 : (key == "") = false := by simpa using hke
          rcases ho : oracle (sceneCall input) with ⟨t, u, f⟩ | d
          · refine Or.inr (Or.inl ⟨Json.obj [("text", .str t), ("usage", u),
              ("finishReason", .str f)],
              [.setProcessEnvOpenAIKey key, .constructAgent, .generate (sceneCall input)], ?_⟩)
            rw [handleSceneScript_run _ env oracle body input key rfl hv hk hke2, ho]
          · refine Or.inl ⟨.other d,
              [.setProcessEnvOpenAIKey key, .constructAgent, .generate (sceneCall input)], ?_⟩
            rw [handleSceneScript_run _ env oracle body input key rfl hv hk hke2, ho]

theorem handleWeather_shape (req : Request) (env : Bindings) (st : CacheState)
    (oracle : GenCall → GenOutcome) :
    (∃ e out, handleWeather req env st oracle = (.error e, out)) ∨
    (∃ d st2 evs, handleWeather req env st oracle = (.ok (jsonResponse d 200), st2, evs)) := by
  obtain ⟨m, p, b⟩ := req
  cases b with
  | error u => exact Or.inl ⟨.jsonSyntax, _, rfl⟩
  | ok body =>
    rcases hv : weatherParse body with e | input
    · exact Or.inl ⟨.zod e, _, handleWeather_zod _ env st oracle body e rfl hv⟩
    · rcases ho : oracle (weatherCall input) with ⟨t, u, f⟩ | d
      · exact Or.inr ⟨Json.obj [("text", .str t), ("usage", u), ("finishReason", .str f)],
          (getMastra env st).2, weatherEvents env input, by
          rw [handleWeather_run _ env st oracle body input rfl hv, ho]⟩
      · exact Or.inl ⟨.other d, ((getMastra env st).2, weatherEvents env input), by
          rw [handleWeather_run _ env st oracle body input rfl hv, ho]⟩

/-- C7 counterexample: the claim says every response (including the 204
OPTIONS preflight) carries `Content-Type: application/json; charset=utf-8`,
but the OPTIONS response is built from the bare CORS triple and has no
content-type header at all. -/
theorem C7_counterexample :
    ((fetch { method := "OPTIONS", path := "/api/weather", body := .error () }
        ⟨none, none, none, none, none, none, none⟩ initialCache
        (fun _ => .err "boom")).resp.headers = corsHeaders) ∧
    (("Content-Type", "application/json; charset=utf-8") ∉
      (fetch { method := "OPTIONS", path := "/api/weather", body := .error () }
        ⟨none, none, none, none, none, none, none⟩ initialCache
        (fun _ => .err "boom")).resp.headers) ∧
    ((fetch { method := "OPTIONS", path := "/api/weather", body := .error () }
        ⟨none, none, none, none, none, none, none⟩ initialCache
        (fun _ => .err "boom")).resp.status = 204) := by
  refine ⟨rfl, ?_, rfl⟩
  decide

/-- C7 (amended): every response carries the three CORS headers; every
response except the 204 OPTIONS preflight and the scene-script 500
missing-OPENAI_API_KEY response also carries
`Content-Type: application/json; charset=utf-8` (those two carry exactly the
bare CORS triple). -/
theorem C7_response_headers (req : Request) (env : Bindings) (st : CacheState)
    (oracle : GenCall → GenOutcome) :
    ((fetch req env st oracle).resp.headers =
        ("Content-Type", "application/json; charset=utf-8") :: corsHeaders ∨
      (fetch req env st oracle).resp.headers = corsHeaders) ∧
    (∀ h ∈ corsHeaders, h ∈ (fetch req env st oracle).resp.headers) ∧
    ((fetch req env st oracle).resp.headers = corsHeaders →
      req.method = "OPTIONS" ∨
        ((fetch req env st oracle).resp.status = 500 ∧
         (fetch req env st oracle).resp.body = some openaiMissingBody)) := by
  have main : (fetch req env st oracle).resp.headers =
        ("Content-Type", "application/json; charset=utf-8") :: corsHeaders ∨
      (req.method = "OPTIONS" ∧ (fetch req env st oracle).resp.headers = corsHeaders) ∨
      ((fetch req env st oracle).resp.headers = corsHeaders ∧
       (fetch req env st oracle).resp.status = 500 ∧
       (fetch req env st oracle).resp.body = some openaiMissingBody) := by
    by_cases hOpt : req.method = "OPTIONS"
    · refine Or.inr (Or.inl ⟨hOpt, ?_⟩)
      unfold fetch
      rw [if_pos hOpt]
    · by_cases hGet : req.method = "GET" ∧ req.path = "/"
      · left
        unfold fetch
        rw [if_neg hOpt, if_pos hGet]
        rfl
      · by_cases hsc : req.method = "POST" ∧ req.path = "/api/scene-script"
        · rcases handleSceneScript_shape req env oracle with
            ⟨e, evs, hh⟩ | ⟨d, evs, hh⟩ | ⟨evs, hh⟩
          · left
            unfold fetch
            rw [if_neg hOpt, if_neg hGet, if_pos hsc, hh]
            cases e <;> rfl
          · left
            unfold fetch
            rw [if_neg hOpt, if_neg hGet, if_pos hsc, hh]
            rfl
          · refine Or.inr (Or.inr ?_)
            unfold fetch
            rw [if_neg hOpt, if_neg hGet, if_pos hsc, hh]
            exact ⟨rfl, rfl, rfl⟩
        · by_cases hw : req.method = "POST" ∧ req.path = "/api/weather"
          · rcases handleWeather_shape req env st oracle with
              ⟨e, out, hh⟩ | ⟨d, st2, evs, hh⟩
            · left
              unfold fetch
              rw [if_neg hOpt, if_neg hGet, if_neg hsc, if_pos hw, hh]
              cases e <;> rfl
            · left
              unfold fetch
              rw [if_neg hOpt, if_neg hGet, if_neg hsc, if_pos hw, hh]
              rfl
          · left
            unfold fetch
            rw [if_neg hOpt, if_neg hGet, if_neg hsc, if_neg hw]
            rfl
  refine ⟨?_, ?_, ?_⟩
  · rcases main with h | ⟨_, h⟩ | ⟨h, _, _⟩
    · exact Or.inl h
    · exact Or.inr h
    · exact Or.inr h
  · intro h hmem
    rcases main with hh | ⟨_, hh⟩ | ⟨hh, _, _⟩ <;> rw [hh]
    · exact List.mem_cons_of_mem _ hmem
    · exact hmem
    · exact hmem
  · intro hcors
    rcases main with hh | ⟨hopt, _⟩ | ⟨_, h5, hbody⟩
    · exact absurd (hh.symm.trans hcors) (by decide)
    · exact Or.inl hopt
    · exact Or.inr ⟨h5, hbody⟩
